import Mathlib

/-!
Verification of `scripts/preprocess_snli.py` (ESIM repository).

The script is modelled as a pure trace-generating function: every observable
action (directory creation, library call on the external `Preprocessor`
object, pickle write) becomes an event in a list.  The external
`esim.data.Preprocessor` collaborator is out of scope for the script, so it is
embedded as an abstract oracle: a structure of arbitrary functions for
`read_data`, `build_worddict`, `transform_to_indices` and
`build_embedding_matrix`.  `os.path.normpath` is likewise treated as an
abstract function.  All theorems quantify over these oracles, so they hold for
every behaviour of the external library.
-/

namespace PreprocessSnli

/-- Evaluation of `fnmatch.fnmatch file pat` for the patterns used by the
script, which are all of the shape `'*' ++ suffix` with a wildcard-free
suffix: on POSIX such a pattern matches exactly the filenames that end with
`suffix`.  Filenames are compared as their character lists. -/
def fnmatchStar (file : String) (suffix : String) : Bool :=
  suffix.data.isSuffixOf file.data

/-- The three filename slots filled by the selection loop of
`preprocess_SNLI_data`; all start out as the empty string. -/
structure DatasetFiles where
  train_file : String
  dev_file : String
  test_file : String
  deriving DecidableEq

/-- One iteration of the selection loop: the `if`/`elif` chain matching the
current filename against `'*_train.txt'`, `'*_dev.txt'`, `'*_test.txt'`. -/
def selectStep (acc : DatasetFiles) (file : String) : DatasetFiles :=
  if fnmatchStar file "_train.txt" then ⟨file, acc.dev_file, acc.test_file⟩
  else if fnmatchStar file "_dev.txt" then ⟨acc.train_file, file, acc.test_file⟩
  else if fnmatchStar file "_test.txt" then ⟨acc.train_file, acc.dev_file, file⟩
  else acc

/-- The selection loop `for file in os.listdir(inputdir)`, starting from three
empty strings. -/
def selectFiles (listing : List String) : DatasetFiles :=
  listing.foldl selectStep ⟨"", "", ""⟩

/-- POSIX `os.path.join` on two components, as used by the script:
an absolute second component wins; otherwise the components are glued with a
separator unless the first already ends in one (or is empty). -/
def osJoin (a b : String) : String :=
  if b.startsWith "/" then b
  else if a = "" ∨ a.endsWith "/" then a ++ b
  else a ++ "/" ++ b

/-- Values the script pickles: the word dictionary, a transformed dataset, or
the embedding matrix. -/
inductive Payload (D T W M : Type) where
  | worddict (w : W)
  | dataset (t : T)
  | matrix (m : M)

/-- The options passed to the `Preprocessor` constructor, read from the
configuration file. -/
structure PrepOptions where
  lowercase : Bool
  ignore_punctuation : Bool
  num_words : Option Nat
  stopwords : List String
  labeldict : List (String × Nat)
  bos : Option String
  eos : Option String

/-- Abstract oracle for the external `esim.data.Preprocessor` object.
`D` is the type of raw datasets returned by `read_data`, `W` the type of word
dictionaries, `T` the type of index-transformed datasets, `M` the type of
embedding matrices.  `transform_to_indices` and `build_embedding_matrix` take
the worddict state they observe as an explicit first argument. -/
structure Preprocessor (D T W M : Type) where
  read_data : String → D
  build_worddict : D → W
  transform_to_indices : W → D → T
  build_embedding_matrix : W → String → M

/-- Observable events of one run of `preprocess_SNLI_data`. -/
inductive Event (D T W M : Type) where
  | makedirs (path : String)
  | read_data (path : String) (result : D)
  | build_worddict (input : D) (result : W)
  | transform_to_indices (worddict : W) (input : D) (result : T)
  | build_embedding_matrix (worddict : W) (path : String) (result : M)
  | pickleDump (path : String) (payload : Payload D T W M)

/-- Shallow embedding of `preprocess_SNLI_data`.  `mkPreprocessor` is the
oracle for the `Preprocessor` constructor, `targetdirExists` the result of
`os.path.exists(targetdir)`, and `listing` the result of
`os.listdir(inputdir)`.  The function returns the trace of observable events
in program order. -/
def preprocess_SNLI_data {D T W M : Type}
    (mkPreprocessor : PrepOptions → Preprocessor D T W M)
    (inputdir embeddings_file targetdir : String)
    (opts : PrepOptions)
    (targetdirExists : Bool) (listing : List String) : List (Event D T W M) :=
  let files := selectFiles listing
  let P := mkPreprocessor opts
  let train_data := P.read_data (osJoin inputdir files.train_file)
  let worddict := P.build_worddict train_data
  let train_t := P.transform_to_indices worddict train_data
  let dev_data := P.read_data (osJoin inputdir files.dev_file)
  let dev_t := P.transform_to_indices worddict dev_data
  let test_data := P.read_data (osJoin inputdir files.test_file)
  let test_t := P.transform_to_indices worddict test_data
  let embed_matrix := P.build_embedding_matrix worddict embeddings_file
  (if targetdirExists then [] else [Event.makedirs targetdir]) ++
  [Event.read_data (osJoin inputdir files.train_file) train_data,
   Event.build_worddict train_data worddict,
   Event.pickleDump (osJoin targetdir "worddict.pkl") (Payload.worddict worddict),
   Event.transform_to_indices worddict train_data train_t,
   Event.pickleDump (osJoin targetdir "train_data.pkl") (Payload.dataset train_t),
   Event.read_data (osJoin inputdir files.dev_file) dev_data,
   Event.transform_to_indices worddict dev_data dev_t,
   Event.pickleDump (osJoin targetdir "dev_data.pkl") (Payload.dataset dev_t),
   Event.read_data (osJoin inputdir files.test_file) test_data,
   Event.transform_to_indices worddict test_data test_t,
   Event.pickleDump (osJoin targetdir "test_data.pkl") (Payload.dataset test_t),
   Event.build_embedding_matrix worddict embeddings_file embed_matrix,
   Event.pickleDump (osJoin targetdir "embeddings.pkl") (Payload.matrix embed_matrix)]

/-- Observable events of the `__main__` block: the configuration file is read
first, then the script body runs. -/
inductive MainEvent (D T W M : Type) where
  | readConfig (path : String)
  | script (e : Event D T W M)

/-- The configuration read from the JSON file. -/
structure Config where
  data_dir : String
  embeddings_file : String
  target_dir : String
  lowercase : Bool
  ignore_punctuation : Bool
  num_words : Option Nat
  stopwords : List String
  labeldict : List (String × Nat)
  bos : Option String
  eos : Option String

/-- The preprocessing options a configuration supplies to the script. -/
def Config.options (cfg : Config) : PrepOptions :=
  ⟨cfg.lowercase, cfg.ignore_punctuation, cfg.num_words, cfg.stopwords,
   cfg.labeldict, cfg.bos, cfg.eos⟩

/-- Shallow embedding of the `__main__` block: read and parse the
configuration file, then call `preprocess_SNLI_data` on the normalised paths.
`normpath` abstracts `os.path.normpath`. -/
def mainRun {D T W M : Type} (mkPreprocessor : PrepOptions → Preprocessor D T W M)
    (normpath : String → String) (configPath : String) (cfg : Config)
    (targetdirExists : Bool) (listing : List String) : List (MainEvent D T W M) :=
  MainEvent.readConfig (normpath configPath) ::
    (preprocess_SNLI_data mkPreprocessor (normpath cfg.data_dir)
        (normpath cfg.embeddings_file) (normpath cfg.target_dir)
        cfg.options targetdirExists listing).map MainEvent.script

/-- One command-line option as declared on the argument parser. -/
structure ArgOption where
  name : String
  defaultValue : String
  helpText : String

/-- The options declared by the `__main__` block: a single `--config` option
with a default path. -/
def cliOptions : List ArgOption :=
  [⟨"--config", "../config/preprocessing.json",
    "Path to a configuration file for preprocessing"⟩]

/-- Selects the dataset and embedding operations invoked on the
`Preprocessor`: `read_data`, `transform_to_indices`,
`build_embedding_matrix`. -/
def isDatasetOrEmbeddingCall {D T W M : Type} : Event D T W M → Bool
  | .read_data _ _ => true
  | .transform_to_indices _ _ _ => true
  | .build_embedding_matrix _ _ _ => true
  | _ => false

/-- Selects any library call on the `Preprocessor` object. -/
def isLibraryCall {D T W M : Type} : Event D T W M → Bool
  | .read_data _ _ => true
  | .build_worddict _ _ => true
  | .transform_to_indices _ _ _ => true
  | .build_embedding_matrix _ _ _ => true
  | _ => false

/-- Extracts a pickle write: the target path and the pickled payload. -/
def pickleOf {D T W M : Type} : Event D T W M → Option (String × Payload D T W M)
  | .pickleDump p pay => some (p, pay)
  | _ => none

/-- Recognises a `build_worddict` call. -/
def isBuildWorddict {D T W M : Type} : Event D T W M → Bool
  | .build_worddict _ _ => true
  | _ => false

/-- Extracts the worddict argument observed by a `transform_to_indices`
call. -/
def transformWorddictArg {D T W M : Type} : Event D T W M → Option W
  | .transform_to_indices w _ _ => some w
  | _ => none

/-- Extracts the path of a `read_data` call. -/
def readDataPath {D T W M : Type} : Event D T W M → Option String
  | .read_data p _ => some p
  | _ => none

/-- Recognises a `makedirs` event. -/
def isMakedirs {D T W M : Type} : Event D T W M → Bool
  | .makedirs _ => true
  | _ => false

/-- Library calls of the `__main__` trace. -/
def mainLibCall {D T W M : Type} : MainEvent D T W M → Option (Event D T W M)
  | .script e => if isLibraryCall e then some e else none
  | _ => none

/-- `x` occurs strictly before `y` in the list `l`. -/
def Precedes {α : Type} (x y : α) (l : List α) : Prop :=
  ∃ p m s, l = p ++ x :: (m ++ y :: s)

/-- Spelled out from the spec wording used to settle claim C2: selection
purely by filename pattern would make each slot the last file of the listing
matching the corresponding pattern, or the empty string when none matches. -/
def lastMatchSpec (suffix : String) (listing : List String) : String :=
  listing.foldl (fun acc file => if fnmatchStar file suffix then file else acc) ""

/-- A trivial concrete instance of the `Preprocessor` oracle over `Nat`
carriers, used to instantiate the universally quantified theorems. -/
def constPreprocessor : PrepOptions → Preprocessor Nat Nat Nat Nat :=
  fun _ => ⟨fun _ => 0, fun _ => 0, fun _ _ => 0, fun _ _ => 0⟩

/-- A concrete set of preprocessing options, used to instantiate the
universally quantified theorems. -/
def sampleOptions : PrepOptions :=
  ⟨false, false, none, [], [], none, none⟩

/-- No filename can end with two of the selection suffixes at once, because
none of them is a suffix of another. -/
lemma fnmatch_not_both {f s₁ s₂ : String}
    (hlen : s₁.data.length ≤ s₂.data.length)
    (hns : ¬ s₁.data <:+ s₂.data) :
    ¬ (fnmatchStar f s₁ = true ∧ fnmatchStar f s₂ = true) := by
  rintro ⟨h₁, h₂⟩
  rw [fnmatchStar, List.isSuffixOf_iff_suffix] at h₁ h₂
  exact hns (List.suffix_of_suffix_length_le h₁ h₂ hlen)

lemma train_excl_dev {f : String} (h : fnmatchStar f "_train.txt" = true) :
    fnmatchStar f "_dev.txt" = false := by
  by_contra hd
  rw [Bool.not_eq_false] at hd
  exact fnmatch_not_both (by decide) (by decide) ⟨hd, h⟩

lemma train_excl_test {f : String} (h : fnmatchStar f "_train.txt" = true) :
    fnmatchStar f "_test.txt" = false := by
  by_contra hd
  rw [Bool.not_eq_false] at hd
  exact fnmatch_not_both (by decide) (by decide) ⟨hd, h⟩

lemma dev_excl_test {f : String} (h : fnmatchStar f "_dev.txt" = true) :
    fnmatchStar f "_test.txt" = false := by
  by_contra hd
  rw [Bool.not_eq_false] at hd
  exact fnmatch_not_both (by decide) (by decide) ⟨h, hd⟩

lemma dev_excl_train {f : String} (h : fnmatchStar f "_dev.txt" = true) :
    fnmatchStar f "_train.txt" = false := by
  by_contra hd
  rw [Bool.not_eq_false] at hd
  exact fnmatch_not_both (by decide) (by decide) ⟨h, hd⟩

lemma test_excl_train {f : String} (h : fnmatchStar f "_test.txt" = true) :
    fnmatchStar f "_train.txt" = false := by
  by_contra hd
  rw [Bool.not_eq_false] at hd
  exact fnmatch_not_both (by decide) (by decide) ⟨h, hd⟩

/-- The selection fold decomposes into three independent last-match folds,
one per pattern, because the patterns are mutually exclusive. -/
lemma foldl_selectStep (l : List String) (acc : DatasetFiles) :
    l.foldl selectStep acc =
      ⟨l.foldl (fun a f => if fnmatchStar f "_train.txt" then f else a) acc.train_file,
       l.foldl (fun a f => if fnmatchStar f "_dev.txt" then f else a) acc.dev_file,
       l.foldl (fun a f => if fnmatchStar f "_test.txt" then f else a) acc.test_file⟩ := by
  induction l generalizing acc with
  | nil => rfl
  | cons f l ih =>
    simp only [List.foldl_cons]
    by_cases htr : fnmatchStar f "_train.txt" = true
    · rw [ih]
      simp [selectStep, htr, train_excl_dev htr, train_excl_test htr]
    · by_cases hde : fnmatchStar f "_dev.txt" = true
      · rw [ih]
        simp [selectStep, htr, hde, dev_excl_test hde]
      · by_cases hte : fnmatchStar f "_test.txt" = true
        · rw [ih]
          simp [selectStep, htr, hde, hte]
        · rw [ih]
          simp [selectStep, htr, hde, hte]

/-- A last-match fold over a listing with no matching file keeps its
accumulator. -/
lemma foldl_keep_of_no_match (suffix : String) (l : List String) (acc : String)
    (h : ∀ f ∈ l, fnmatchStar f suffix = false) :
    l.foldl (fun a f => if fnmatchStar f suffix then f else a) acc = acc := by
  induction l generalizing acc with
  | nil => rfl
  | cons f l ih =>
    simp only [List.foldl_cons, h f (by simp)]
    exact ih acc fun g hg => h g (List.mem_cons_of_mem f hg)

/-- A last-match fold returns its accumulator or a file matching the
pattern. -/
lemma foldl_match_invariant (suffix : String) (l : List String) (acc : String) :
    l.foldl (fun a f => if fnmatchStar f suffix then f else a) acc = acc ∨
      fnmatchStar
        (l.foldl (fun a f => if fnmatchStar f suffix then f else a) acc) suffix
        = true := by
  induction l generalizing acc with
  | nil => exact Or.inl rfl
  | cons f l ih =>
    simp only [List.foldl_cons]
    by_cases hf : fnmatchStar f suffix = true
    · rw [if_pos hf]
      rcases ih f with h | h
      · rw [h]
        exact Or.inr hf
      · exact Or.inr h
    · rw [if_neg hf]
      exact ih acc

/-- A last-match fold computes the last element of the listing matching the
pattern: the accumulator survives exactly when no element matches. -/
lemma foldl_lastMatch_eq_filter_getLast (suffix : String) (l : List String)
    (acc : String) :
    l.foldl (fun a f => if fnmatchStar f suffix then f else a) acc =
      ((l.filter fun f => fnmatchStar f suffix).getLast?).getD acc := by
  induction l generalizing acc with
  | nil => rfl
  | cons f l ih =>
    simp only [List.foldl_cons, List.filter_cons]
    by_cases hf : fnmatchStar f suffix = true
    · rw [if_pos hf, if_pos hf, ih f]
      cases hfl : l.filter fun g => fnmatchStar g suffix with
      | nil => rfl
      | cons x xs =>
        rw [List.getLast?_cons_cons]
        cases hgl : (x :: xs).getLast? with
        | none =>
          exact absurd hgl (by simp)
        | some y => rfl
    · rw [if_neg hf, if_neg hf]
      exact ih acc

/-- Splitting a list at a position holding a known element. -/
lemma exists_split_of_getElem {α : Type} :
    ∀ (l : List α) (i : Nat) (x : α), l[i]? = some x →
      ∃ p s, l = p ++ x :: s ∧ p.length = i
  | [], i, x, h => by simp at h
  | a :: l, 0, x, h => by
    simp only [List.getElem?_cons_zero, Option.some.injEq] at h
    exact ⟨[], l, by simp [h], rfl⟩
  | a :: l, i + 1, x, h => by
    rw [List.getElem?_cons_succ] at h
    obtain ⟨p, s, hl, hp⟩ := exists_split_of_getElem l i x h
    exact ⟨a :: p, s, by simp [hl], by simp [hp]⟩

/-- Two known positions in a list give a `Precedes` decomposition. -/
lemma precedes_of_getElem {α : Type} (l : List α) (i j : Nat) {x y : α}
    (hij : i < j) (hx : l[i]? = some x) (hy : l[j]? = some y) :
    Precedes x y l := by
  obtain ⟨p, s, hl, hp⟩ := exists_split_of_getElem l i x hx
  subst hl
  have hj : s[j - i - 1]? = some y := by
    rw [List.getElem?_append_right (by omega)] at hy
    have hidx : j - p.length = (j - i - 1) + 1 := by omega
    rwa [hidx, List.getElem?_cons_succ] at hy
  obtain ⟨m, t, hs, _⟩ := exists_split_of_getElem s (j - i - 1) y hj
  exact ⟨p, m, t, by rw [hs]⟩

/-- Claim C1: every run of `preprocess_SNLI_data` invokes the `Preprocessor`
dataset contract exactly three times, once per split, each a `read_data` call
followed by a `transform_to_indices` call on its result, plus exactly one
`build_embedding_matrix` call for the embeddings, and no other dataset or
embedding operation. -/
theorem dataset_and_embedding_calls {D T W M : Type}
    (mk : PrepOptions → Preprocessor D T W M)
    (inputdir embeddings_file targetdir : String) (opts : PrepOptions)
    (ex : Bool) (listing : List String) :
    (preprocess_SNLI_data mk inputdir embeddings_file targetdir opts
        ex listing).filter isDatasetOrEmbeddingCall =
      (let P := mk opts
       let files := selectFiles listing
       let train_data := P.read_data (osJoin inputdir files.train_file)
       let worddict := P.build_worddict train_data
       let dev_data := P.read_data (osJoin inputdir files.dev_file)
       let test_data := P.read_data (osJoin inputdir files.test_file)
       [Event.read_data (osJoin inputdir files.train_file) train_data,
        Event.transform_to_indices worddict train_data
          (P.transform_to_indices worddict train_data),
        Event.read_data (osJoin inputdir files.dev_file) dev_data,
        Event.transform_to_indices worddict dev_data
          (P.transform_to_indices worddict dev_data),
        Event.read_data (osJoin inputdir files.test_file) test_data,
        Event.transform_to_indices worddict test_data
          (P.transform_to_indices worddict test_data),
        Event.build_embedding_matrix worddict embeddings_file
          (P.build_embedding_matrix worddict embeddings_file)]) := by
  cases ex <;> rfl

/-- Claim C3: every successful run serialises exactly five outputs into
`targetdir`: the word dictionary to `worddict.pkl`, the transformed train,
dev and test data to `train_data.pkl`, `dev_data.pkl`, `test_data.pkl`, and
the embedding matrix to `embeddings.pkl`. -/
theorem five_pickled_outputs {D T W M : Type}
    (mk : PrepOptions → Preprocessor D T W M)
    (inputdir embeddings_file targetdir : String) (opts : PrepOptions)
    (ex : Bool) (listing : List String) :
    (preprocess_SNLI_data mk inputdir embeddings_file targetdir opts
        ex listing).filterMap pickleOf =
      (let P := mk opts
       let files := selectFiles listing
       let train_data := P.read_data (osJoin inputdir files.train_file)
       let worddict := P.build_worddict train_data
       let dev_data := P.read_data (osJoin inputdir files.dev_file)
       let test_data := P.read_data (osJoin inputdir files.test_file)
       [(osJoin targetdir "worddict.pkl", Payload.worddict worddict),
        (osJoin targetdir "train_data.pkl",
         Payload.dataset (P.transform_to_indices worddict train_data)),
        (osJoin targetdir "dev_data.pkl",
         Payload.dataset (P.transform_to_indices worddict dev_data)),
        (osJoin targetdir "test_data.pkl",
         Payload.dataset (P.transform_to_indices worddict test_data)),
        (osJoin targetdir "embeddings.pkl",
         Payload.matrix (P.build_embedding_matrix worddict embeddings_file))]) := by
  cases ex <;> rfl

/-- Claim C4: the worddict is built exactly once, from the train data only,
before any `transform_to_indices` call, and all three transformations observe
that same worddict. -/
theorem worddict_built_once_from_train {D T W M : Type}
    (mk : PrepOptions → Preprocessor D T W M)
    (inputdir embeddings_file targetdir : String) (opts : PrepOptions)
    (ex : Bool) (listing : List String) :
    (let tr := preprocess_SNLI_data mk inputdir embeddings_file targetdir opts
        ex listing
     let P := mk opts
     let train_data :=
       P.read_data (osJoin inputdir (selectFiles listing).train_file)
     let worddict := P.build_worddict train_data
     tr.filter isBuildWorddict = [Event.build_worddict train_data worddict] ∧
       (tr.takeWhile fun e => ! isBuildWorddict e).filterMap
         transformWorddictArg = [] ∧
       tr.filterMap transformWorddictArg = [worddict, worddict, worddict]) := by
  cases ex <;> exact ⟨rfl, rfl, rfl⟩

/-- Claim C7: the run terminates for every finite listing and every oracle
behaviour: the trace is a fixed finite sequence of events whose length does
not depend on the listing (13 events, or 14 when `targetdir` must first be
created). -/
theorem preprocess_terminates {D T W M : Type}
    (mk : PrepOptions → Preprocessor D T W M)
    (inputdir embeddings_file targetdir : String) (opts : PrepOptions)
    (ex : Bool) (listing : List String) :
    (preprocess_SNLI_data mk inputdir embeddings_file targetdir opts
        ex listing).length = if ex then 13 else 14 := by
  cases ex <;> rfl

/-- Claim C10: when `targetdir` does not exist it is created (recursively, by
`os.makedirs`) before anything is written, no directory other than
`targetdir` is ever created, and the only paths written are the five pickle
files inside `targetdir`. -/
theorem targetdir_frame {D T W M : Type}
    (mk : PrepOptions → Preprocessor D T W M)
    (inputdir embeddings_file targetdir : String) (opts : PrepOptions)
    (listing : List String) :
    (preprocess_SNLI_data mk inputdir embeddings_file targetdir opts
        false listing).head? = some (Event.makedirs targetdir) ∧
    (preprocess_SNLI_data mk inputdir embeddings_file targetdir opts
        false listing).filter isMakedirs = [Event.makedirs targetdir] ∧
    (preprocess_SNLI_data mk inputdir embeddings_file targetdir opts
        true listing).filter isMakedirs = [] ∧
    ∀ ex : Bool,
      ((preprocess_SNLI_data mk inputdir embeddings_file targetdir opts
          ex listing).filterMap pickleOf).map Prod.fst =
        [osJoin targetdir "worddict.pkl", osJoin targetdir "train_data.pkl",
         osJoin targetdir "dev_data.pkl", osJoin targetdir "test_data.pkl",
         osJoin targetdir "embeddings.pkl"] := by
  exact ⟨rfl, rfl, rfl, fun ex => by cases ex <;> rfl⟩

/-- Claim C2, counterexample: with two files matching `'*_train.txt'` in the
listing, the earlier one matches the pattern yet is not chosen as the train
file, so "chosen iff the name matches" fails as stated. -/
theorem selection_not_iff_match :
    fnmatchStar "a_train.txt" "_train.txt" = true ∧
    "a_train.txt" ∈ ["a_train.txt", "b_train.txt"] ∧
    (selectFiles ["a_train.txt", "b_train.txt"]).train_file ≠ "a_train.txt" ∧
    (selectFiles ["a_train.txt", "b_train.txt"]).train_file = "b_train.txt" := by
  refine ⟨by decide, by decide, by decide, by decide⟩

/-- Claim C2, amended: selection uses only the filename patterns — each slot
equals the last file of the listing matching the corresponding pattern
(`'*_train.txt'`, `'*_dev.txt'`, `'*_test.txt'`), or the empty string when no
file matches; no criterion other than the name enters. -/
theorem selection_by_pattern_only (listing : List String) :
    selectFiles listing =
      ⟨lastMatchSpec "_train.txt" listing, lastMatchSpec "_dev.txt" listing,
       lastMatchSpec "_test.txt" listing⟩ := by
  simpa [selectFiles, lastMatchSpec] using foldl_selectStep listing ⟨"", "", ""⟩

/-- Claim C6: the command-line interface declares exactly one option,
`--config`, defaulting to `../config/preprocessing.json`; the event alphabet
of the embedding has no network operation. -/
theorem cli_single_config_option :
    cliOptions.map ArgOption.name = ["--config"] ∧
    cliOptions.map ArgOption.defaultValue = ["../config/preprocessing.json"] ∧
    cliOptions.length = 1 := by
  exact ⟨rfl, rfl, rfl⟩

/-- Claim C8: when no file of the listing matches `'*_train.txt'`
(respectively `'*_dev.txt'`, `'*_test.txt'`), the corresponding slot remains
the empty string and the script, raising no error of its own, calls
`read_data` for that split (the first, second and third `read_data` call
respectively) on `os.path.join(inputdir, "")` — the input directory path
itself — and still produces its full trace. -/
theorem missing_pattern_file_behaviour {D T W M : Type}
    (mk : PrepOptions → Preprocessor D T W M)
    (inputdir embeddings_file targetdir : String) (opts : PrepOptions)
    (ex : Bool) (listing : List String) :
    ((∀ f ∈ listing, fnmatchStar f "_train.txt" = false) →
      (selectFiles listing).train_file = "" ∧
      ((preprocess_SNLI_data mk inputdir embeddings_file targetdir opts
          ex listing).filterMap readDataPath)[0]? = some (osJoin inputdir "")) ∧
    ((∀ f ∈ listing, fnmatchStar f "_dev.txt" = false) →
      (selectFiles listing).dev_file = "" ∧
      ((preprocess_SNLI_data mk inputdir embeddings_file targetdir opts
          ex listing).filterMap readDataPath)[1]? = some (osJoin inputdir "")) ∧
    ((∀ f ∈ listing, fnmatchStar f "_test.txt" = false) →
      (selectFiles listing).test_file = "" ∧
      ((preprocess_SNLI_data mk inputdir embeddings_file targetdir opts
          ex listing).filterMap readDataPath)[2]? = some (osJoin inputdir "")) ∧
    (preprocess_SNLI_data mk inputdir embeddings_file targetdir opts
        ex listing).length = if ex then 13 else 14 := by
  have hreads : (preprocess_SNLI_data mk inputdir embeddings_file targetdir opts
      ex listing).filterMap readDataPath =
      [osJoin inputdir (selectFiles listing).train_file,
       osJoin inputdir (selectFiles listing).dev_file,
       osJoin inputdir (selectFiles listing).test_file] := by
    cases ex <;> rfl
  refine ⟨fun h => ?_, fun h => ?_, fun h => ?_, by cases ex <;> rfl⟩
  · have hs : (selectFiles listing).train_file = "" := by
      rw [selectFiles, foldl_selectStep]
      exact foldl_keep_of_no_match "_train.txt" listing "" h
    exact ⟨hs, by rw [hreads, hs]; rfl⟩
  · have hs : (selectFiles listing).dev_file = "" := by
      rw [selectFiles, foldl_selectStep]
      exact foldl_keep_of_no_match "_dev.txt" listing "" h
    exact ⟨hs, by rw [hreads, hs]; rfl⟩
  · have hs : (selectFiles listing).test_file = "" := by
      rw [selectFiles, foldl_selectStep]
      exact foldl_keep_of_no_match "_test.txt" listing "" h
    exact ⟨hs, by rw [hreads, hs]; rfl⟩

/-- Concrete instance of claim C8: a listing whose single file matches none
of the three patterns leaves all three slots empty and routes all three
`read_data` calls to the joined empty path, with the full trace produced. -/
theorem missing_pattern_file_witness :
    (selectFiles ["other.txt"]).train_file = "" ∧
    ((preprocess_SNLI_data constPreprocessor "snli" "emb" "out" sampleOptions
        true ["other.txt"]).filterMap readDataPath)[0]? = some (osJoin "snli" "") ∧
    (selectFiles ["other.txt"]).dev_file = "" ∧
    ((preprocess_SNLI_data constPreprocessor "snli" "emb" "out" sampleOptions
        true ["other.txt"]).filterMap readDataPath)[1]? = some (osJoin "snli" "") ∧
    (selectFiles ["other.txt"]).test_file = "" ∧
    ((preprocess_SNLI_data constPreprocessor "snli" "emb" "out" sampleOptions
        true ["other.txt"]).filterMap readDataPath)[2]? = some (osJoin "snli" "") ∧
    (preprocess_SNLI_data constPreprocessor "snli" "emb" "out" sampleOptions
        true ["other.txt"]).length = if true then 13 else 14 :=
  ⟨((missing_pattern_file_behaviour constPreprocessor "snli" "emb" "out"
      sampleOptions true ["other.txt"]).1 (by decide)).1,
   ((missing_pattern_file_behaviour constPreprocessor "snli" "emb" "out"
      sampleOptions true ["other.txt"]).1 (by decide)).2,
   ((missing_pattern_file_behaviour constPreprocessor "snli" "emb" "out"
      sampleOptions true ["other.txt"]).2.1 (by decide)).1,
   ((missing_pattern_file_behaviour constPreprocessor "snli" "emb" "out"
      sampleOptions true ["other.txt"]).2.1 (by decide)).2,
   ((missing_pattern_file_behaviour constPreprocessor "snli" "emb" "out"
      sampleOptions true ["other.txt"]).2.2.1 (by decide)).1,
   ((missing_pattern_file_behaviour constPreprocessor "snli" "emb" "out"
      sampleOptions true ["other.txt"]).2.2.1 (by decide)).2,
   (missing_pattern_file_behaviour constPreprocessor "snli" "emb" "out"
      sampleOptions true ["other.txt"]).2.2.2⟩

/-- Claim C9: for every listing, each slot holds the file occurring last in
`os.listdir` order among those matching its pattern (each later match
overwrites the earlier assignment; the empty string when none matches), and a
file matching `'*_train.txt'` is never assigned to the dev or test slot. -/
theorem last_match_wins (listing : List String) :
    (selectFiles listing).train_file =
      ((listing.filter fun f => fnmatchStar f "_train.txt").getLast?).getD "" ∧
    (selectFiles listing).dev_file =
      ((listing.filter fun f => fnmatchStar f "_dev.txt").getLast?).getD "" ∧
    (selectFiles listing).test_file =
      ((listing.filter fun f => fnmatchStar f "_test.txt").getLast?).getD "" ∧
    fnmatchStar (selectFiles listing).dev_file "_train.txt" = false ∧
    fnmatchStar (selectFiles listing).test_file "_train.txt" = false := by
  have htr : (selectFiles listing).train_file =
      listing.foldl (fun a f => if fnmatchStar f "_train.txt" then f else a) "" := by
    rw [selectFiles, foldl_selectStep]
  have hdev : (selectFiles listing).dev_file =
      listing.foldl (fun a f => if fnmatchStar f "_dev.txt" then f else a) "" := by
    rw [selectFiles, foldl_selectStep]
  have hte : (selectFiles listing).test_file =
      listing.foldl (fun a f => if fnmatchStar f "_test.txt" then f else a) "" := by
    rw [selectFiles, foldl_selectStep]
  refine ⟨?_, ?_, ?_, ?_, ?_⟩
  · rw [htr, foldl_lastMatch_eq_filter_getLast]
  · rw [hdev, foldl_lastMatch_eq_filter_getLast]
  · rw [hte, foldl_lastMatch_eq_filter_getLast]
  · rw [hdev]
    rcases foldl_match_invariant "_dev.txt" listing "" with h | h
    · rw [h]
      decide
    · exact dev_excl_train h
  · rw [hte]
    rcases foldl_match_invariant "_test.txt" listing "" with h | h
    · rw [h]
      decide
    · exact test_excl_train h

/-- Claim C5: the entry point reads and parses the configuration file first,
then invokes the library methods in program order, and every pickle write
happens only after the library call that produced its payload: the worddict
dump follows `build_worddict`, each dataset dump follows the
`transform_to_indices` call that produced it, and the embeddings dump follows
`build_embedding_matrix`. -/
theorem main_ordered_pipeline {D T W M : Type}
    (mk : PrepOptions → Preprocessor D T W M) (normpath : String → String)
    (configPath : String) (cfg : Config) (ex : Bool) (listing : List String) :
    (let tr := mainRun mk normpath configPath cfg ex listing
     let P := mk cfg.options
     let inputdir := normpath cfg.data_dir
     let targetdir := normpath cfg.target_dir
     let files := selectFiles listing
     let train_data := P.read_data (osJoin inputdir files.train_file)
     let worddict := P.build_worddict train_data
     let train_t := P.transform_to_indices worddict train_data
     let dev_data := P.read_data (osJoin inputdir files.dev_file)
     let dev_t := P.transform_to_indices worddict dev_data
     let test_data := P.read_data (osJoin inputdir files.test_file)
     let test_t := P.transform_to_indices worddict test_data
     let embed_matrix :=
       P.build_embedding_matrix worddict (normpath cfg.embeddings_file)
     tr.head? = some (MainEvent.readConfig (normpath configPath)) ∧
     tr.filterMap mainLibCall =
       [Event.read_data (osJoin inputdir files.train_file) train_data,
        Event.build_worddict train_data worddict,
        Event.transform_to_indices worddict train_data train_t,
        Event.read_data (osJoin inputdir files.dev_file) dev_data,
        Event.transform_to_indices worddict dev_data dev_t,
        Event.read_data (osJoin inputdir files.test_file) test_data,
        Event.transform_to_indices worddict test_data test_t,
        Event.build_embedding_matrix worddict (normpath cfg.embeddings_file)
          embed_matrix] ∧
     Precedes (MainEvent.script (Event.build_worddict train_data worddict))
       (MainEvent.script (Event.pickleDump (osJoin targetdir "worddict.pkl")
         (Payload.worddict worddict))) tr ∧
     Precedes
       (MainEvent.script (Event.transform_to_indices worddict train_data train_t))
       (MainEvent.script (Event.pickleDump (osJoin targetdir "train_data.pkl")
         (Payload.dataset train_t))) tr ∧
     Precedes
       (MainEvent.script (Event.transform_to_indices worddict dev_data dev_t))
       (MainEvent.script (Event.pickleDump (osJoin targetdir "dev_data.pkl")
         (Payload.dataset dev_t))) tr ∧
     Precedes
       (MainEvent.script (Event.transform_to_indices worddict test_data test_t))
       (MainEvent.script (Event.pickleDump (osJoin targetdir "test_data.pkl")
         (Payload.dataset test_t))) tr ∧
     Precedes
       (MainEvent.script (Event.build_embedding_matrix worddict
         (normpath cfg.embeddings_file) embed_matrix))
       (MainEvent.script (Event.pickleDump (osJoin targetdir "embeddings.pkl")
         (Payload.matrix embed_matrix))) tr) := by
  cases ex
  · exact ⟨rfl, rfl,
      precedes_of_getElem _ 3 4 (by omega) rfl rfl,
      precedes_of_getElem _ 5 6 (by omega) rfl rfl,
      precedes_of_getElem _ 8 9 (by omega) rfl rfl,
      precedes_of_getElem _ 11 12 (by omega) rfl rfl,
      precedes_of_getElem _ 13 14 (by omega) rfl rfl⟩
  · exact ⟨rfl, rfl,
      precedes_of_getElem _ 2 3 (by omega) rfl rfl,
      precedes_of_getElem _ 4 5 (by omega) rfl rfl,
      precedes_of_getElem _ 7 8 (by omega) rfl rfl,
      precedes_of_getElem _ 10 11 (by omega) rfl rfl,
      precedes_of_getElem _ 12 13 (by omega) rfl rfl⟩

end PreprocessSnli
